import Mathlib

/-! Verification model of the pump-agent streaming token tracker.

The definitions below are a shallow embedding of the TypeScript sources:
  * `src/src/data-collector/websocket-client.ts` (`PriceTracker`, the second,
    cleanup-capable class declared at line 1023, and `PumpPortalClient`),
  * the `DataProcessor` pipeline (`src/unnamed/part_001`),
  * the `tokenCleanedUp` handler wiring in `src/src/main.ts`,
  * the constants in `src/src/utils/constants.ts`.

JS `Map`s are modelled as insertion-ordered association lists and JS `Set`s as
insertion-ordered duplicate-free lists, which matches the iteration order the
source relies on.  JS numbers are modelled as `Rat` (prices, volumes,
percentages) and timestamps (`Date` / `Date.now()`) as `Int` milliseconds.
Asynchronous effects (database writes, event-bus emissions) are collected in an
explicit `Effects` record returned by each operation.
-/

namespace PumpAgent

set_option maxRecDepth 1000000

/-- Opaque token identifier (`mint`). -/
abbrev Mint := String

/-- A JS `Map` keyed by strings: an insertion-ordered association list. -/
abbrev MapL (V : Type) := List (Mint × V)

/-- Source `Map.get`: the value stored at `k`, if any. -/
def mapGet {V : Type} : MapL V → Mint → Option V
  | [], _ => none
  | (k', v) :: rest, k => if k' = k then some v else mapGet rest k

/-- Source `Map.set`: overwrite in place if the key exists, else append (JS insertion order). -/
def mapSet {V : Type} : MapL V → Mint → V → MapL V
  | [], k, v => [(k, v)]
  | (k', v') :: rest, k, v =>
      if k' = k then (k', v) :: rest else (k', v') :: mapSet rest k v

/-- Source `Map.delete`: remove the entry for `k`. -/
def mapDelete {V : Type} : MapL V → Mint → MapL V
  | [], _ => []
  | (k', v) :: rest, k =>
      if k' = k then mapDelete rest k else (k', v) :: mapDelete rest k

/-- A JS `Set` of strings: an insertion-ordered duplicate-free list. -/
abbrev MintSet := List Mint

/-- Source `Set.add`: append if not present. -/
def setAdd (s : MintSet) (m : Mint) : MintSet := if m ∈ s then s else s ++ [m]

/-- Source `Set.delete`: remove `m`. -/
def setDelete : MintSet → Mint → MintSet
  | [], _ => []
  | x :: rest, m => if x = m then setDelete rest m else x :: setDelete rest m

/-- Source `new Set([...a, ...b, ...c])`: union keeping first-occurrence order. -/
def setUnion3 (a b c : MintSet) : MintSet := (a ++ b ++ c).foldl setAdd []

/-- JS `String.prototype.startsWith`. -/
def strStartsWith (s pre : String) : Bool := pre.data.isPrefixOf s.data

/-- Source `TokenData` (schema.ts:8).  Optional metadata fields (`uri`, socials, …)
are never read by the modelled operations and are omitted. -/
structure TokenData where
  mint : Mint
  symbol : String
  name : String
  platform : String
  price : Rat
  volume24h : Rat
  marketCap : Rat
  liquidity : Rat
  timestamp : Int
deriving DecidableEq

/-- Source `PricePoint` (schema.ts:30). -/
structure PricePoint where
  mint : Mint
  platform : String
  price : Rat
  volume : Rat
  timestamp : Int
  source : String
deriving DecidableEq

/-- Source `TokenHealth` (websocket-client.ts:983). -/
structure TokenHealth where
  mint : Mint
  lastTradeTime : Int
  firstSeenTime : Int
  consecutiveZeroVolumePeriods : Nat
  peakPrice : Rat
  peakVolume24h : Rat
  currentLiquidity : Rat
  isWhitelisted : Bool
  isBeingEvaluated : Bool
deriving DecidableEq

/-- Alert kind (source field name: `type`). -/
inductive AlertKind
  | threshold
  | percentage
deriving DecidableEq

inductive AlertCondition
  | above
  | below
deriving DecidableEq

/-- Source `PriceAlert` (websocket-client.ts:954). -/
structure PriceAlert where
  id : String
  mint : Mint
  symbol : String
  kind : AlertKind
  condition : AlertCondition
  value : Rat
  enabled : Bool
  triggered : Bool
  createdAt : Int
  triggeredAt : Option Int
deriving DecidableEq

/-- The trend entries only matter to the modelled code through their map keys
(`trendKey = mint ++ "-" ++ timeframe`); the analyzer itself is out of the
claims' scope, so only the fields written on construction are kept. -/
structure PriceTrend where
  mint : Mint
  timeframe : String
  direction : String
  changePercent : Rat
deriving DecidableEq

inductive ReasonKind
  | rugged
  | inactive
  | low_volume
deriving DecidableEq

/-- Source `CleanupReason` (websocket-client.ts:1015). -/
structure CleanupReason where
  mint : Mint
  symbol : String
  platform : String
  reason : ReasonKind
  details : String
deriving DecidableEq

/-- Source `CleanupEvent` (schema.ts:255).  The numeric formatting of `details` is
inherited from the `CleanupReason`. -/
structure CleanupEvent where
  mint : Mint
  symbol : String
  platform : String
  reason : ReasonKind
  details : String
  timestamp : Int
  finalPrice : Rat
  finalVolume : Rat
  finalLiquidity : Rat
  finalMarketCap : Rat
  peakPrice : Rat
  peakVolume : Rat
  trackedDuration : Int
  totalTrades : Nat
deriving DecidableEq

/-- Source `CleanupMetrics` (schema.ts:273). -/
structure CleanupMetrics where
  totalEvaluated : Nat
  ruggedDetected : Nat
  inactiveDetected : Nat
  lowVolumeDetected : Nat
  actuallyRemoved : Nat
  savedByWhitelist : Nat
  savedByGracePeriod : Nat
  savedByLimit : Nat
  executionTimeMs : Int
deriving DecidableEq

inductive TxStatus
  | evaluating
  | confirming
  | executing
  | completed
  | failed
deriving DecidableEq

/-- Source `CleanupTransaction` (websocket-client.ts:995); bookkeeping only. -/
structure CleanupTransaction where
  startTime : Int
  candidatesCount : Nat
  confirmedCount : Nat
  completedCount : Nat
  status : TxStatus
deriving DecidableEq

/-- Source `EmergencyOverrideConfig` (schema.ts:322). -/
structure EmergencyOverrideConfig where
  MAX_CLEANUP_PERCENTAGE : Rat
  CLEANUP_ENABLED : Bool
  FORCE_MINIMUM_TOKENS : Bool
  BYPASS_SAFETY_CHECKS : Bool
deriving DecidableEq

/-- Source `TrackingStats` (websocket-client.ts:1004). -/
structure TrackingStats where
  totalTokensTracked : Nat
  pricePointsProcessed : Nat
  alertsTriggered : Nat
  trendsDetected : Nat
  lastUpdate : Option Int
  tokensCleanedUp : Nat
  lastCleanupTime : Option Int
deriving DecidableEq

/-- Source `TOKEN_CLEANUP_CONFIG` (constants.ts:83), as a record so its shape is
explicit; `defaultConfig` below carries the source's literal values. -/
structure CleanupConfig where
  INACTIVITY_THRESHOLD_MS : Int
  MIN_VOLUME_24H_SOL : Rat
  CONSECUTIVE_ZERO_VOLUME_PERIODS : Nat
  RUG_DETECTION_PRICE_DROP : Rat
  RUG_DETECTION_LIQUIDITY_THRESHOLD_USD : Rat
  RUG_DETECTION_VOLUME_DROP : Rat
  CLEANUP_INTERVAL_MS : Int
  MAX_CLEANUP_PERCENTAGE : Rat
  MIN_TOKENS_TO_KEEP : Nat
  NEW_TOKEN_GRACE_PERIOD_MS : Int
  WHITELIST_TOKENS : List Mint
  CLEANUP_ENABLED : Bool
deriving DecidableEq

/-- The literal values of `TOKEN_CLEANUP_CONFIG`. -/
def defaultConfig : CleanupConfig where
  INACTIVITY_THRESHOLD_MS := 3600000
  MIN_VOLUME_24H_SOL := 10
  CONSECUTIVE_ZERO_VOLUME_PERIODS := 3
  RUG_DETECTION_PRICE_DROP := 0.95
  RUG_DETECTION_LIQUIDITY_THRESHOLD_USD := 100
  RUG_DETECTION_VOLUME_DROP := 0.99
  CLEANUP_INTERVAL_MS := 300000
  MAX_CLEANUP_PERCENTAGE := 0.1
  MIN_TOKENS_TO_KEEP := 100
  NEW_TOKEN_GRACE_PERIOD_MS := 1800000
  WHITELIST_TOKENS := []
  CLEANUP_ENABLED := true

/-- The mutable fields of the `PriceTracker` class (websocket-client.ts:1023).
The `emergencyOverrides` object is flattened into its three fields. -/
structure TrackerState where
  trackedTokens : MapL TokenData
  priceHistory : MapL (List PricePoint)
  alerts : MapL PriceAlert
  trends : MapL PriceTrend
  tokenHealth : MapL TokenHealth
  lastActivityMap : MapL Int
  stats : TrackingStats
  cleanupInProgress : Bool
  currentTransaction : Option CleanupTransaction
  tokensBeingEvaluated : MintSet
  emergencyStop : Bool
  cleanupPaused : Bool
  disableAllCleanup : Bool
  forceMinimumTokens : Bool
  emergencyWhitelist : MintSet
  emergencyConfigOverride : Option EmergencyOverrideConfig
  inactiveTokensIndex : MintSet
  lowVolumeTokensIndex : MintSet
  ruggedCandidatesIndex : MintSet
  recentlyActiveIndex : MintSet
  newTokensIndex : MintSet
deriving DecidableEq

/-- The tracker's state at construction. -/
def initialTrackerState : TrackerState where
  trackedTokens := []
  priceHistory := []
  alerts := []
  trends := []
  tokenHealth := []
  lastActivityMap := []
  stats :=
    { totalTokensTracked := 0, pricePointsProcessed := 0, alertsTriggered := 0,
      trendsDetected := 0, lastUpdate := none, tokensCleanedUp := 0,
      lastCleanupTime := none }
  cleanupInProgress := false
  currentTransaction := none
  tokensBeingEvaluated := []
  emergencyStop := false
  cleanupPaused := false
  disableAllCleanup := false
  forceMinimumTokens := false
  emergencyWhitelist := []
  emergencyConfigOverride := none
  inactiveTokensIndex := []
  lowVolumeTokensIndex := []
  ruggedCandidatesIndex := []
  recentlyActiveIndex := []
  newTokensIndex := []

/-- Observable side effects of an operation: sink writes and event-bus
emissions, in order of occurrence. -/
structure Effects where
  priceWrites : List PricePoint
  cleanupEventWrites : List CleanupEvent
  tokenTrackedEvents : List (Mint × Rat)
  alertTriggeredEvents : List PriceAlert
  cleanedUpEvents : List CleanupReason
  metricsEvents : List CleanupMetrics
deriving DecidableEq

def Effects.empty : Effects :=
  { priceWrites := [], cleanupEventWrites := [], tokenTrackedEvents := [],
    alertTriggeredEvents := [], cleanedUpEvents := [], metricsEvents := [] }

def Effects.append (a b : Effects) : Effects :=
  { priceWrites := a.priceWrites ++ b.priceWrites,
    cleanupEventWrites := a.cleanupEventWrites ++ b.cleanupEventWrites,
    tokenTrackedEvents := a.tokenTrackedEvents ++ b.tokenTrackedEvents,
    alertTriggeredEvents := a.alertTriggeredEvents ++ b.alertTriggeredEvents,
    cleanedUpEvents := a.cleanedUpEvents ++ b.cleanedUpEvents,
    metricsEvents := a.metricsEvents ++ b.metricsEvents }

/-- Source `updateTokenIndices` (websocket-client.ts:1518). -/
def updateTokenIndices (cfg : CleanupConfig) (now : Int) (mint : Mint)
    (td : TokenData) (h : TokenHealth) (s : TrackerState) : TrackerState :=
  let s :=
    { s with
      inactiveTokensIndex := setDelete s.inactiveTokensIndex mint,
      lowVolumeTokensIndex := setDelete s.lowVolumeTokensIndex mint,
      ruggedCandidatesIndex := setDelete s.ruggedCandidatesIndex mint,
      recentlyActiveIndex := setDelete s.recentlyActiveIndex mint,
      newTokensIndex := setDelete s.newTokensIndex mint }
  let tokenAge := now - h.firstSeenTime
  if tokenAge < cfg.NEW_TOKEN_GRACE_PERIOD_MS then
    { s with newTokensIndex := setAdd s.newTokensIndex mint }
  else
    let timeSinceLastTrade := now - h.lastTradeTime
    let s :=
      if (timeSinceLastTrade : Rat) < (cfg.INACTIVITY_THRESHOLD_MS : Rat) / 2 then
        { s with recentlyActiveIndex := setAdd s.recentlyActiveIndex mint }
      else s
    let s :=
      if timeSinceLastTrade > cfg.INACTIVITY_THRESHOLD_MS then
        { s with inactiveTokensIndex := setAdd s.inactiveTokensIndex mint }
      else s
    let volume24h := td.volume24h
    let s :=
      if volume24h < cfg.MIN_VOLUME_24H_SOL ∧
          h.consecutiveZeroVolumePeriods ≥ cfg.CONSECUTIVE_ZERO_VOLUME_PERIODS then
        { s with lowVolumeTokensIndex := setAdd s.lowVolumeTokensIndex mint }
      else s
    let priceDropPercent := (h.peakPrice - td.price) / h.peakPrice
    let lowLiquidity := h.currentLiquidity < cfg.RUG_DETECTION_LIQUIDITY_THRESHOLD_USD
    let significantPriceDrop := priceDropPercent ≥ cfg.RUG_DETECTION_PRICE_DROP
    let s :=
      if lowLiquidity ∨ significantPriceDrop then
        { s with ruggedCandidatesIndex := setAdd s.ruggedCandidatesIndex mint }
      else s
    if h.peakVolume24h > 0 ∧
        (h.peakVolume24h - volume24h) / h.peakVolume24h ≥ cfg.RUG_DETECTION_VOLUME_DROP then
      { s with ruggedCandidatesIndex := setAdd s.ruggedCandidatesIndex mint }
    else s

/-- Stable insertion of a point into a timestamp-sorted history
(models `history.sort((a, b) => a.timestamp - b.timestamp)`). -/
def insertByTimestamp (pp : PricePoint) : List PricePoint → List PricePoint
  | [] => [pp]
  | q :: rest =>
      if q.timestamp ≤ pp.timestamp then q :: insertByTimestamp pp rest
      else pp :: q :: rest

def sortByTimestamp : List PricePoint → List PricePoint
  | [] => []
  | p :: rest => insertByTimestamp p (sortByTimestamp rest)

/-- Source `addPricePoint` (websocket-client.ts:1263): append, cap at the 1000 most
recent entries, sort by timestamp, write the point to the sink. -/
def addPricePoint (pp : PricePoint) (s : TrackerState) :
    TrackerState × List PricePoint :=
  let history := (mapGet s.priceHistory pp.mint).getD []
  let history := history ++ [pp]
  let history :=
    if history.length > 1000 then history.drop (history.length - 1000) else history
  let history := sortByTimestamp history
  ({ s with priceHistory := mapSet s.priceHistory pp.mint history }, [pp])

/-- The trigger condition of `checkAlerts` (websocket-client.ts:1296). -/
def alertShouldTrigger (td : TokenData) (history : List PricePoint)
    (a : PriceAlert) : Bool :=
  match a.kind with
  | .threshold =>
      (decide (a.condition = .above) && decide (td.price ≥ a.value)) ||
        (decide (a.condition = .below) && decide (td.price ≤ a.value))
  | .percentage =>
      match history.head? with
      | some firstPrice =>
          let oldPrice := firstPrice.price
          let changePercent := (td.price - oldPrice) / oldPrice * 100
          (decide (a.condition = .above) && decide (changePercent ≥ a.value)) ||
            (decide (a.condition = .below) && decide (changePercent ≤ a.value))
      | none => false

/-- One iteration of the `checkAlerts` loop: the updated alert and, when it
fires, the emitted alert. -/
def checkAlertEntry (now : Int) (td : TokenData) (history : List PricePoint)
    (a : PriceAlert) : PriceAlert × Option PriceAlert :=
  if a.mint = td.mint ∧ a.enabled = true ∧ a.triggered = false then
    if alertShouldTrigger td history a then
      let a' := { a with triggered := true, triggeredAt := some now }
      (a', some a')
    else (a, none)
  else (a, none)

/-- Source `checkAlerts` (websocket-client.ts:1286).  The source's `for..of` loop
mutates each matching entry in place and the iterations are independent, so it
is modelled as a pointwise map plus the list of fired alerts. -/
def checkAlerts (now : Int) (td : TokenData) (s : TrackerState) :
    TrackerState × List PriceAlert :=
  let history := (mapGet s.priceHistory td.mint).getD []
  let alerts' := s.alerts.map fun p => (p.1, (checkAlertEntry now td history p.2).1)
  let fired := s.alerts.filterMap fun p => (checkAlertEntry now td history p.2).2
  ({ s with alerts := alerts',
            stats :=
              { s.stats with
                alertsTriggered := s.stats.alertsTriggered + fired.length } },
   fired)

/-- Tail of `trackToken` after the health upsert (websocket-client.ts:1238):
index maintenance, price point, alerts, stats, `tokenTracked` emission. -/
def trackTokenContinue (cfg : CleanupConfig) (now : Int) (td : TokenData)
    (health : TokenHealth) (s : TrackerState) : TrackerState × Effects :=
  let s := updateTokenIndices cfg now td.mint td health s
  let pp : PricePoint :=
    { mint := td.mint, platform := td.platform, price := td.price,
      volume := td.volume24h, timestamp := td.timestamp, source := "tracker" }
  let r1 := addPricePoint pp s
  let r2 := checkAlerts now td r1.1
  let s :=
    { r2.1 with
      stats :=
        { r2.1.stats with
          pricePointsProcessed := r2.1.stats.pricePointsProcessed + 1,
          lastUpdate := some now } }
  (s,
   { Effects.empty with
     priceWrites := r1.2, alertTriggeredEvents := r2.2,
     tokenTrackedEvents := [(td.mint, td.price)] })

/-- The health record created on first sight of a mint
(websocket-client.ts:1201). -/
def freshHealth (cfg : CleanupConfig) (now : Int) (td : TokenData) : TokenHealth :=
  { mint := td.mint, lastTradeTime := now, firstSeenTime := now,
    consecutiveZeroVolumePeriods := 0, peakPrice := td.price,
    peakVolume24h := td.volume24h, currentLiquidity := td.liquidity,
    isWhitelisted := cfg.WHITELIST_TOKENS.contains td.mint,
    isBeingEvaluated := false }

/-- The health update applied by an accepted (non-skipped) `trackToken`
(websocket-client.ts:1220-1235): refresh `lastTradeTime` and liquidity, fold
the snapshot into the peaks, and reset the zero-volume counter when the
volume is positive. -/
def updatedHealth (now : Int) (td : TokenData) (health : TokenHealth) : TokenHealth :=
  { health with
    lastTradeTime := now,
    currentLiquidity := td.liquidity,
    peakPrice := if td.price > health.peakPrice then td.price else health.peakPrice,
    peakVolume24h :=
      if td.volume24h > health.peakVolume24h then td.volume24h
      else health.peakVolume24h,
    consecutiveZeroVolumePeriods :=
      if td.volume24h > 0 then 0 else health.consecutiveZeroVolumePeriods }

/-- Source `trackToken` (websocket-client.ts:1188).  Note that the snapshot map and
the last-activity map are updated BEFORE the `isBeingEvaluated` guard, exactly
as in the source (lines 1193-1196 precede the check at line 1215). -/
def trackToken (cfg : CleanupConfig) (now : Int) (td : TokenData)
    (s : TrackerState) : TrackerState × Effects :=
  let mint := td.mint
  let s :=
    { s with trackedTokens := mapSet s.trackedTokens mint td,
             lastActivityMap := mapSet s.lastActivityMap mint now }
  match mapGet s.tokenHealth mint with
  | none =>
      let health := freshHealth cfg now td
      let s := { s with tokenHealth := mapSet s.tokenHealth mint health }
      trackTokenContinue cfg now td health s
  | some health =>
      if health.isBeingEvaluated then (s, Effects.empty)
      else
        let health := updatedHealth now td health
        let s := { s with tokenHealth := mapSet s.tokenHealth mint health }
        trackTokenContinue cfg now td health s

/-- Source `detectRuggedToken` (websocket-client.ts:2219).  Pure; in `Rat`, division
by a zero peak yields `0`, which (like the float `NaN` the source produces
there) fails every `≥ threshold` comparison since the thresholds are positive.
The numeric interpolation inside `details` is elided. -/
def detectRuggedToken (cfg : CleanupConfig) (td : TokenData) (h : TokenHealth) :
    Option CleanupReason :=
  let priceDropPercent := (h.peakPrice - td.price) / h.peakPrice
  if priceDropPercent ≥ cfg.RUG_DETECTION_PRICE_DROP then
    some { mint := td.mint, symbol := td.symbol, platform := td.platform,
           reason := .rugged, details := "Price dropped from peak" }
  else if h.currentLiquidity < cfg.RUG_DETECTION_LIQUIDITY_THRESHOLD_USD then
    some { mint := td.mint, symbol := td.symbol, platform := td.platform,
           reason := .rugged, details := "Liquidity below threshold" }
  else if h.peakVolume24h > 0 ∧
      (h.peakVolume24h - td.volume24h) / h.peakVolume24h ≥ cfg.RUG_DETECTION_VOLUME_DROP then
    some { mint := td.mint, symbol := td.symbol, platform := td.platform,
           reason := .rugged, details := "Volume dropped from peak" }
  else none

/-- Source `detectInactiveToken` (websocket-client.ts:2261).  It MUTATES the health
record: when the token is not time-inactive and its volume is strictly below
`MIN_VOLUME_24H_SOL`, `consecutiveZeroVolumePeriods` is incremented.  The
updated health is returned alongside the optional reason. -/
def detectInactiveToken (cfg : CleanupConfig) (now : Int) (td : TokenData)
    (h : TokenHealth) : Option CleanupReason × TokenHealth :=
  let timeSinceLastTrade := now - h.lastTradeTime
  if timeSinceLastTrade > cfg.INACTIVITY_THRESHOLD_MS then
    (some { mint := td.mint, symbol := td.symbol, platform := td.platform,
            reason := .inactive, details := "No trades for minutes" }, h)
  else if td.volume24h < cfg.MIN_VOLUME_24H_SOL then
    let h' :=
      { h with consecutiveZeroVolumePeriods := h.consecutiveZeroVolumePeriods + 1 }
    if h'.consecutiveZeroVolumePeriods ≥ cfg.CONSECUTIVE_ZERO_VOLUME_PERIODS then
      (some { mint := td.mint, symbol := td.symbol, platform := td.platform,
              reason := .low_volume, details := "Volume below threshold for periods" },
       h')
    else (none, h')
  else (none, h)

/-- The inactive/low-volume part of the phase-1 loop body
(websocket-client.ts:2090). -/
def evalInactivePart (cfg : CleanupConfig) (now : Int) (mint : Mint)
    (td : TokenData) (h : TokenHealth) (s : TrackerState)
    (cands : List CleanupReason) : TrackerState × List CleanupReason :=
  if mint ∈ s.inactiveTokensIndex ∨ mint ∈ s.lowVolumeTokensIndex then
    let r := detectInactiveToken cfg now td h
    let s := { s with tokenHealth := mapSet s.tokenHealth mint r.2 }
    match r.1 with
    | some reason => (s, cands ++ [reason])
    | none => (s, cands)
  else (s, cands)

/-- The body of the phase-1 loop over potential candidates
(websocket-client.ts:2063). -/
def evalCandidateStep (cfg : CleanupConfig) (now : Int)
    (acc : TrackerState × List CleanupReason) (mint : Mint) :
    TrackerState × List CleanupReason :=
  let s := acc.1
  let cands := acc.2
  match mapGet s.trackedTokens mint, mapGet s.tokenHealth mint with
  | some td, some h =>
      let h := { h with isBeingEvaluated := true }
      let s :=
        { s with tokenHealth := mapSet s.tokenHealth mint h,
                 tokensBeingEvaluated := setAdd s.tokensBeingEvaluated mint }
      if h.isWhitelisted = true ∨ mint ∈ s.emergencyWhitelist then (s, cands)
      else if now - h.firstSeenTime < cfg.NEW_TOKEN_GRACE_PERIOD_MS then (s, cands)
      else if mint ∈ s.ruggedCandidatesIndex then
        match detectRuggedToken cfg td h with
        | some r => (s, cands ++ [r])
        | none => evalInactivePart cfg now mint td h s cands
      else evalInactivePart cfg now mint td h s cands
  | _, _ => (s, cands)

/-- Source `evaluateCleanupCandidates` (websocket-client.ts:2029), phase 1.  The
`effectiveMinTokens` local (line 2033) is inlined into the gate. -/
def evaluateCleanupCandidates (cfg : CleanupConfig) (now : Int)
    (s : TrackerState) : TrackerState × List CleanupReason :=
  if s.trackedTokens.length ≤
      (if s.forceMinimumTokens then cfg.MIN_TOKENS_TO_KEEP * 2
       else cfg.MIN_TOKENS_TO_KEEP) then
    (s, [])
  else
    (setUnion3 s.ruggedCandidatesIndex s.inactiveTokensIndex
        s.lowVolumeTokensIndex).foldl
      (evalCandidateStep cfg now) (s, [])

/-- Source `untrackToken` (websocket-client.ts:2294).  The `CleanupEvent` audit
record is constructed in the source but its sink write (line 2329,
`writeCleanupEvent`) is commented out behind a TODO, so `cleanupEventWrites`
receives nothing; the in-memory removals, the alert and trend sweeps and the
`tokenCleanedUp` emission all happen unconditionally. -/
def untrackToken (now : Int) (reason : CleanupReason) (s : TrackerState) :
    TrackerState × Effects :=
  let mint := reason.mint
  let s :=
    { s with
      trackedTokens := mapDelete s.trackedTokens mint,
      priceHistory := mapDelete s.priceHistory mint,
      tokenHealth := mapDelete s.tokenHealth mint,
      lastActivityMap := mapDelete s.lastActivityMap mint,
      inactiveTokensIndex := setDelete s.inactiveTokensIndex mint,
      lowVolumeTokensIndex := setDelete s.lowVolumeTokensIndex mint,
      ruggedCandidatesIndex := setDelete s.ruggedCandidatesIndex mint,
      recentlyActiveIndex := setDelete s.recentlyActiveIndex mint,
      newTokensIndex := setDelete s.newTokensIndex mint,
      alerts := s.alerts.filter fun p => decide ¬ p.2.mint = mint,
      trends := s.trends.filter fun p => ! strStartsWith p.1 mint }
  (s, { Effects.empty with cleanedUpEvents := [reason] })

/-- Source `getEffectiveMaxCleanupPercentage` (websocket-client.ts:1938). -/
def getEffectiveMaxCleanupPercentage (s : TrackerState) (cfg : CleanupConfig) : Rat :=
  match s.emergencyConfigOverride with
  | some o => o.MAX_CLEANUP_PERCENTAGE
  | none => cfg.MAX_CLEANUP_PERCENTAGE

/-- The body of the phase-2 re-verify-and-untrack loop
(websocket-client.ts:2137).  For a non-`rugged` reason the re-check goes
through `detectInactiveToken` and therefore mutates the health counter
again. -/
def execStep (cfg : CleanupConfig) (now : Int)
    (acc : TrackerState × CleanupMetrics × Effects) (reason : CleanupReason) :
    TrackerState × CleanupMetrics × Effects :=
  let s := acc.1
  let m := acc.2.1
  let eff := acc.2.2
  match mapGet s.trackedTokens reason.mint, mapGet s.tokenHealth reason.mint with
  | some td, some h =>
      match reason.reason with
      | .rugged =>
          if (detectRuggedToken cfg td h).isSome then
            let r := untrackToken now reason s
            (r.1, { m with actuallyRemoved := m.actuallyRemoved + 1 },
             eff.append r.2)
          else (s, m, eff)
      | _ =>
          let d := detectInactiveToken cfg now td h
          let s := { s with tokenHealth := mapSet s.tokenHealth reason.mint d.2 }
          if d.1.isSome then
            let r := untrackToken now reason s
            (r.1, { m with actuallyRemoved := m.actuallyRemoved + 1 },
             eff.append r.2)
          else (s, m, eff)
  | _, _ => (s, m, eff)

/-- Source `confirmAndExecuteCleanup` (websocket-client.ts:2101), phase 2.  `budget`
models an exception thrown inside the execute loop: `some k` aborts the loop
after `k` iterations (the source rethrows and the caller's `finally` takes
over); `none` is the normal full run. -/
def confirmAndExecuteCleanup (cfg : CleanupConfig) (now : Int)
    (candidates : List CleanupReason) (budget : Option Nat) (s : TrackerState) :
    TrackerState × CleanupMetrics × Effects :=
  let maxCleanup :=
    (⌊(s.trackedTokens.length : Rat) * getEffectiveMaxCleanupPercentage s cfg⌋).toNat
  let tokensToCleanup := candidates.take maxCleanup
  let m0 : CleanupMetrics :=
    { totalEvaluated := s.tokensBeingEvaluated.length,
      ruggedDetected :=
        (candidates.filter fun c => decide (c.reason = .rugged)).length,
      inactiveDetected :=
        (candidates.filter fun c => decide (c.reason = .inactive)).length,
      lowVolumeDetected :=
        (candidates.filter fun c => decide (c.reason = .low_volume)).length,
      actuallyRemoved := 0,
      savedByWhitelist :=
        (s.tokensBeingEvaluated.filter fun mint =>
          match mapGet s.tokenHealth mint with
          | some h => h.isWhitelisted
          | none => false).length,
      savedByGracePeriod :=
        (s.tokensBeingEvaluated.filter fun mint =>
          match mapGet s.tokenHealth mint with
          | some h => decide (now - h.firstSeenTime < cfg.NEW_TOKEN_GRACE_PERIOD_MS)
          | none => false).length,
      savedByLimit := candidates.length - tokensToCleanup.length,
      executionTimeMs := 0 }
  let executed :=
    match budget with
    | none => tokensToCleanup
    | some k => tokensToCleanup.take k
  executed.foldl (execStep cfg now) (s, m0, Effects.empty)

/-- Source `clearCleanupLocks` (websocket-client.ts:2169).  The source iterates over
`tokensBeingEvaluated` and clears the flag of every still-present health
entry; over a uniquely-keyed map this is the pointwise update below, followed
by emptying the set. -/
def clearCleanupLocks (s : TrackerState) : TrackerState :=
  { s with
    tokenHealth := s.tokenHealth.map fun p =>
      (p.1,
       if p.1 ∈ s.tokensBeingEvaluated then { p.2 with isBeingEvaluated := false }
       else p.2),
    tokensBeingEvaluated := [] }

/-- Source `logCleanupResults` (websocket-client.ts:2180).  The
`writeCleanupMetrics` sink call (line 2185) is commented out in the source;
the stats update and the `cleanupMetrics` emission remain. -/
def logCleanupResults (now : Int) (metrics : CleanupMetrics) (s : TrackerState) :
    TrackerState × Effects :=
  let s :=
    if metrics.actuallyRemoved > 0 then
      { s with
        stats :=
          { s.stats with
            tokensCleanedUp := s.stats.tokensCleanedUp + metrics.actuallyRemoved,
            lastCleanupTime := some now } }
    else s
  (s, { Effects.empty with metricsEvents := [metrics] })

/-- Where an exception strikes a cleanup transaction, if anywhere.  The
`finally` block of `performCleanup` runs in every case. -/
inductive CleanupFault
  | noFault
  | afterEvaluate
  | duringExecute (k : Nat)
  | duringLog
deriving DecidableEq

/-- The `finally` block of `performCleanup` (websocket-client.ts:2021). -/
def finalizeCleanup (s : TrackerState) : TrackerState :=
  { clearCleanupLocks s with cleanupInProgress := false, currentTransaction := none }

/-- Result of one `performCleanup` invocation: final state, the metrics when
the transaction completed, the accumulated effects, and whether it exited by
rethrowing an exception. -/
structure CleanupOutcome where
  state : TrackerState
  metrics : Option CleanupMetrics
  eff : Effects
  threw : Bool
deriving DecidableEq

/-- Source `performCleanup` (websocket-client.ts:1965): emergency-control and
reentrancy guards, phase 1, phase 2, metrics logging, with the lock-clearing
`finally` on every exit path. -/
def performCleanup (cfg : CleanupConfig) (now : Int) (fault : CleanupFault)
    (s : TrackerState) : CleanupOutcome :=
  if s.emergencyStop = true ∨ s.cleanupPaused = true ∨ s.disableAllCleanup = true then
    { state := s, metrics := none, eff := Effects.empty, threw := false }
  else if s.cleanupInProgress then
    { state := s, metrics := none, eff := Effects.empty, threw := false }
  else
    let tx : CleanupTransaction :=
      { startTime := now, candidatesCount := 0, confirmedCount := 0,
        completedCount := 0, status := .evaluating }
    let s := { s with cleanupInProgress := true, currentTransaction := some tx }
    let e := evaluateCleanupCandidates cfg now s
    match fault with
    | .afterEvaluate =>
        { state := finalizeCleanup e.1, metrics := none, eff := Effects.empty,
          threw := true }
    | .duringExecute k =>
        let c := confirmAndExecuteCleanup cfg now e.2 (some k) e.1
        { state := finalizeCleanup c.1, metrics := none, eff := c.2.2, threw := true }
    | .duringLog =>
        let c := confirmAndExecuteCleanup cfg now e.2 none e.1
        { state := finalizeCleanup c.1, metrics := none, eff := c.2.2, threw := true }
    | .noFault =>
        let c := confirmAndExecuteCleanup cfg now e.2 none e.1
        let l := logCleanupResults now c.2.1 c.1
        { state := finalizeCleanup l.1, metrics := some c.2.1,
          eff := c.2.2.append l.2, threw := false }

/-- Source `forceEmergencyCleanup` (websocket-client.ts:1866): validates the
percentage, installs the emergency config override, runs one transaction, and
clears the override in its own `finally`. -/
def forceEmergencyCleanup (cfg : CleanupConfig) (now : Int) (percentage : Rat)
    (fault : CleanupFault) (s : TrackerState) : Option CleanupOutcome :=
  if percentage ≤ 0 ∨ percentage > 0.5 then none
  else
    let s :=
      { s with
        emergencyConfigOverride :=
          some { MAX_CLEANUP_PERCENTAGE := percentage, CLEANUP_ENABLED := true,
                 FORCE_MINIMUM_TOKENS := false, BYPASS_SAFETY_CHECKS := true } }
    let o := performCleanup cfg now fault s
    some { o with state := { o.state with emergencyConfigOverride := none } }

/-- The `tokenCleanedUp` handler in `main.ts` (line 344): one
`unsubscribeFromTokens([mint])` call per emission whose mint is truthy. -/
def mainUnsubscribeCalls (eff : Effects) : List (List Mint) :=
  eff.cleanedUpEvents.filterMap fun r =>
    if r.mint = "" then none else some [r.mint]

/-- Base58 alphabet test used by `validateMintAddress` (validators.ts:133). -/
def isBase58Char (c : Char) : Bool :=
  (decide ('1' ≤ c) && decide (c ≤ '9')) ||
  (decide ('A' ≤ c) && decide (c ≤ 'H')) ||
  (decide ('J' ≤ c) && decide (c ≤ 'N')) ||
  (decide ('P' ≤ c) && decide (c ≤ 'Z')) ||
  (decide ('a' ≤ c) && decide (c ≤ 'k')) ||
  (decide ('m' ≤ c) && decide (c ≤ 'z'))

/-- Source `validateMintAddress` (validators.ts:133): base58, 32-44 characters. -/
def validateMintAddress (mint : Mint) : Bool :=
  decide (32 ≤ mint.data.length) && decide (mint.data.length ≤ 44) &&
    mint.data.all isBase58Char

def isAlphanumChar (c : Char) : Bool :=
  (decide ('A' ≤ c) && decide (c ≤ 'Z')) ||
  (decide ('a' ≤ c) && decide (c ≤ 'z')) ||
  (decide ('0' ≤ c) && decide (c ≤ '9'))

/-- Source `validateTokenSymbol` (validators.ts:139): alphanumeric, 1-10 characters. -/
def validateTokenSymbol (symbol : String) : Bool :=
  decide (1 ≤ symbol.data.length) && decide (symbol.data.length ≤ 10) &&
    symbol.data.all isAlphanumChar

/-- Source `validatePrice` / `validateVolume` (validators.ts:145): non-negative
finite number; `Rat` values are always finite. -/
def validatePrice (price : Rat) : Bool := decide (price ≥ 0)

def validateVolume (volume : Rat) : Bool := decide (volume ≥ 0)

/-- A `tokenUpdate` message as consumed by `DataProcessor.processTokenUpdate`. -/
structure TokenUpdateMessage where
  data : TokenData
  timestamp : Int
deriving DecidableEq

/-- The `DataProcessor` fields the token-update path touches (part_001). -/
structure ProcessorState where
  recentMints : MapL Int
  tokenUpdatesProcessed : Nat
  validationErrors : Nat
deriving DecidableEq

/-- Source `DataProcessor` construction defaults (part_001:61). -/
structure ProcessorConfig where
  enableValidation : Bool
  batchSize : Nat
  flushInterval : Int
  dedupWindowMs : Int
deriving DecidableEq

def defaultProcessorConfig : ProcessorConfig where
  enableValidation := true
  batchSize := 100
  flushInterval := 5000
  dedupWindowMs := 1000

/-- Source `DataProcessor.isDuplicate` (part_001:318).  On a hit inside the window
it returns `true` WITHOUT refreshing the stored timestamp; otherwise it
stores `now` and returns `false`.  The source's `lastSeen &&` truthiness test
makes a stored timestamp of `0` count as absent. -/
def isDuplicate (cfg : ProcessorConfig) (now : Int) (mint : Mint)
    (ps : ProcessorState) : Bool × ProcessorState :=
  match mapGet ps.recentMints mint with
  | some lastSeen =>
      if lastSeen ≠ 0 ∧ now - lastSeen < cfg.dedupWindowMs then (true, ps)
      else (false, { ps with recentMints := mapSet ps.recentMints mint now })
  | none => (false, { ps with recentMints := mapSet ps.recentMints mint now })

/-- Source `DataProcessor.validateTokenData` (part_001:260).  In the modelled
`TokenData` every field is present, so the `!== undefined` guards always
apply. -/
def validateTokenData (td : TokenData) : Bool :=
  validateMintAddress td.mint && validateTokenSymbol td.symbol &&
    validatePrice td.price && validateVolume td.volume24h

/-- Source `DataProcessor.processTokenUpdate` (part_001:204): dedup FIRST, then
validation, then acceptance with the message timestamp stamped on. -/
def processTokenUpdate (cfg : ProcessorConfig) (now : Int)
    (msg : TokenUpdateMessage) (ps : ProcessorState) :
    Option TokenData × ProcessorState :=
  let d := isDuplicate cfg now msg.data.mint ps
  if d.1 then (none, d.2)
  else if cfg.enableValidation = true ∧ validateTokenData msg.data = false then
    (none, { d.2 with validationErrors := d.2.validationErrors + 1 })
  else
    (some { msg.data with timestamp := msg.timestamp },
     { d.2 with tokenUpdatesProcessed := d.2.tokenUpdatesProcessed + 1 })

/-- Source `DataProcessor.createPricePoint` (part_001:248): only for a strictly
positive price (`!price || price <= 0` rejects 0). -/
def createPricePoint (td : TokenData) : Option PricePoint :=
  if td.price ≤ 0 then none
  else
    some { mint := td.mint, platform := td.platform, price := td.price,
           volume := td.volume24h, timestamp := td.timestamp,
           source := "pumpportal" }

/-- The contribution of one `tokenUpdate` message to the batch's parallel
write vectors (snapshots, price points) inside `processQueue`
(part_001:145): an accepted update contributes one snapshot and, when the
price is positive, one price point; a dropped one contributes nothing. -/
def processTokenMessageBatchPart (cfg : ProcessorConfig) (now : Int)
    (msg : TokenUpdateMessage) (ps : ProcessorState) :
    (List TokenData × List PricePoint) × ProcessorState :=
  let r := processTokenUpdate cfg now msg ps
  match r.1 with
  | some td => (([td], (createPricePoint td).toList), r.2)
  | none => (([], []), r.2)

/-- Source `PumpPortalClient` reconnect options (websocket-client.ts). -/
structure ReconnectOptions where
  reconnectDelay : Nat
  maxReconnectAttempts : Nat
deriving DecidableEq

/-- Outcome of `scheduleReconnect`: either the terminal
`maxReconnectAttemptsReached` emission, or a timer armed with the computed
delay and the incremented attempt counter. -/
inductive ReconnectAction
  | maxReached
  | scheduled (attempts : Nat) (delayMs : Nat)
deriving DecidableEq

/-- Source `PumpPortalClient.scheduleReconnect` (websocket-client.ts:356). -/
def scheduleReconnect (opts : ReconnectOptions) (reconnectAttempts : Nat) :
    ReconnectAction :=
  if reconnectAttempts ≥ opts.maxReconnectAttempts then .maxReached
  else
    let attempts := reconnectAttempts + 1
    .scheduled attempts (min (opts.reconnectDelay * 2 ^ (attempts - 1)) 60000)

/-! Part: State predicates used by the claims -/

/-- Peaks dominate the snapshot, stated over the two maps involved. -/
def PeakInv2 (tracked : MapL TokenData) (health : MapL TokenHealth) : Prop :=
  ∀ m td h, mapGet tracked m = some td → mapGet health m = some h →
    h.peakPrice ≥ td.price ∧ h.peakVolume24h ≥ td.volume24h

/-- Spec §8 invariant 1: peaks dominate the current snapshot for every
tracked mint. -/
def PeakInvariant (s : TrackerState) : Prop :=
  PeakInv2 s.trackedTokens s.tokenHealth

/-- Every health entry whose `isBeingEvaluated` flag is set is registered in
the given tag set. -/
def FlagsTagged2 (health : MapL TokenHealth) (tagged : MintSet) : Prop :=
  ∀ m h, mapGet health m = some h → h.isBeingEvaluated = true → m ∈ tagged

/-- Every flagged health entry is registered in `tokensBeingEvaluated` (true
in every reachable state; phase 1 sets the flag and registers the mint in the
same step). -/
def FlagsTagged (s : TrackerState) : Prop :=
  FlagsTagged2 s.tokenHealth s.tokensBeingEvaluated

/-- No health entry has its evaluation flag set. -/
def NoEvalFlags (s : TrackerState) : Prop :=
  ∀ m h, mapGet s.tokenHealth m = some h → h.isBeingEvaluated = false

/-- The mint's update would not be skipped: its health entry, if present, is
not under evaluation. -/
def NotBeingEvaluated (s : TrackerState) (m : Mint) : Prop :=
  ∀ h, mapGet s.tokenHealth m = some h → h.isBeingEvaluated = false

/-! Part: Concrete executions (used as counterexamples / failing inputs)

`defaultConfig.MIN_TOKENS_TO_KEEP = 100`, so cleanup evaluation only engages
beyond 100 tracked tokens; the traces below therefore track 101 distinct
mints (single characters "A", "B", …) and are built exclusively from the
modelled public operations, i.e. they are reachable executions. -/

def mintOfNat (i : Nat) : Mint := String.mk [Char.ofNat (65 + i)]

/-- Initial snapshot for the i-th scenario token: price 100, volume 100,
liquidity 0 (below the $100 rug liquidity floor once out of grace). -/
def tdInit (i : Nat) : TokenData :=
  { mint := mintOfNat i, symbol := "T", name := "T", platform := "pump.fun",
    price := 100, volume24h := 100, marketCap := 1000, liquidity := 0,
    timestamp := 0 }

/-- 101 tokens tracked at t = 0. -/
def s101 : TrackerState :=
  ((List.range 101).map tdInit).foldl
    (fun s td => (trackToken defaultConfig 0 td s).1) initialTrackerState

/-- Source `NEW_TOKEN_GRACE_PERIOD_MS`: at this instant the t = 0 tokens leave the
grace period (`tokenAge < grace` is false). -/
def graceT : Int := 1800000

def tdLate (i : Nat) : TokenData := { tdInit i with timestamp := graceT }

/-- Re-track token "A" at the end of grace: zero liquidity puts it in
`ruggedCandidatesIndex`. -/
def s101b : TrackerState := (trackToken defaultConfig graceT (tdLate 0) s101).1

/-- Also re-track token "B": two rug candidates among 101 tracked tokens. -/
def s101c : TrackerState := (trackToken defaultConfig graceT (tdLate 1) s101b).1

/-- Phase 1 has run on `s101b`: token "A" is marked `isBeingEvaluated`.  In
the source this is the state between phase 1 and phase 2 of a cleanup
transaction, where token updates can interleave (the awaits in phase 2). -/
def sMarked : TrackerState :=
  (evaluateCleanupCandidates defaultConfig graceT s101b).1

/-- An update for "A" arriving mid-transaction: price pumped to 200. -/
def tdPumped : TokenData :=
  { tdInit 0 with price := 200, liquidity := 50, timestamp := graceT + 1000 }

/-- The mid-transaction update was (silently) processed for "A". -/
def sSkip : TrackerState :=
  (trackToken defaultConfig (graceT + 1000) tdPumped sMarked).1

/-- A subsequent fully accepted update for "B". -/
def tdOther : TokenData := { tdInit 1 with timestamp := graceT + 2000 }

def sAfterC2 : TrackerState :=
  (trackToken defaultConfig (graceT + 2000) tdOther sSkip).1

/-- A full cleanup transaction over the 101-token state with two confirmed
rug candidates. -/
def cleanupRun : CleanupOutcome :=
  performCleanup defaultConfig graceT CleanupFault.noFault s101c

/-- Token with volume 5, strictly below `MIN_VOLUME_24H_SOL = 10` but
positive. -/
def tdVol5 : TokenData :=
  { mint := "A", symbol := "T", name := "T", platform := "pump.fun",
    price := 1, volume24h := 5, marketCap := 10, liquidity := 500,
    timestamp := 0 }

def sVol5a : TrackerState := (trackToken defaultConfig 0 tdVol5 initialTrackerState).1

def tdVol5Later : TokenData := { tdVol5 with timestamp := 1000 }

/-- The health entry `sVol5a` holds for "A". -/
def healthVol5a : TokenHealth :=
  { mint := "A", lastTradeTime := 0, firstSeenTime := 0,
    consecutiveZeroVolumePeriods := 0, peakPrice := 1, peakVolume24h := 5,
    currentLiquidity := 500, isWhitelisted := false, isBeingEvaluated := false }

/-- A second accepted update with volume 5 (< MIN_VOLUME_24H_SOL). -/
def sVol5b : TrackerState :=
  (trackToken defaultConfig 1000 tdVol5Later sVol5a).1

/-- Projections used to state counterexamples without binders. -/
def snapshotPriceOf (s : TrackerState) (m : Mint) : Option Rat :=
  (mapGet s.trackedTokens m).map TokenData.price

def peakPriceOf (s : TrackerState) (m : Mint) : Option Rat :=
  (mapGet s.tokenHealth m).map TokenHealth.peakPrice

def evalFlagOf (s : TrackerState) (m : Mint) : Option Bool :=
  (mapGet s.tokenHealth m).map TokenHealth.isBeingEvaluated

def zeroVolPeriodsOf (s : TrackerState) (m : Mint) : Option Nat :=
  (mapGet s.tokenHealth m).map TokenHealth.consecutiveZeroVolumePeriods

/-- Threshold alerts for mint "A" at exactly the update price (value 5):
one `above`, one `below`. -/
def alertAboveA : PriceAlert :=
  { id := "al1", mint := "A", symbol := "T", kind := .threshold,
    condition := .above, value := 5, enabled := true, triggered := false,
    createdAt := 0, triggeredAt := none }

def alertBelowA : PriceAlert := { alertAboveA with id := "al2", condition := .below }

def sTwoAlerts : TrackerState :=
  { initialTrackerState with
    alerts := [("al1", alertAboveA), ("al2", alertBelowA)] }

/-- An update for "A" whose price equals both alerts' value. -/
def tdPrice5 : TokenData := { tdVol5 with price := 5 }

/-- A minimal state whose only health entry is under evaluation (used to
instantiate skip-path theorems). -/
def healthFlagged : TokenHealth :=
  { mint := "A", lastTradeTime := 0, firstSeenTime := 0,
    consecutiveZeroVolumePeriods := 0, peakPrice := 100, peakVolume24h := 100,
    currentLiquidity := 0, isWhitelisted := false, isBeingEvaluated := true }

def sFlagged : TrackerState :=
  { initialTrackerState with
    trackedTokens := [("A", tdVol5)],
    tokenHealth := [("A", healthFlagged)],
    tokensBeingEvaluated := ["A"] }

/-- A processor state that accepted mint "A" at t = 500. -/
def psW : ProcessorState :=
  { recentMints := [("A", 500)], tokenUpdatesProcessed := 1, validationErrors := 0 }

/-- A resubmission for mint "A" arriving at t = 900, inside the 1000 ms
dedup window. -/
def msgW : TokenUpdateMessage := { data := tdVol5, timestamp := 900 }

/-! Part: Container lemmas -/

theorem mapGet_mapSet_self {V : Type} (l : MapL V) (k : Mint) (v : V) :
    mapGet (mapSet l k v) k = some v := by
  induction l with
  | nil => simp [mapSet, mapGet]
  | cons p rest ih =>
      by_cases hk : p.1 = k
      · simp [mapSet, mapGet, hk]
      · simp [mapSet, mapGet, hk, ih]

theorem mapGet_mapSet_ne {V : Type} (l : MapL V) (k k' : Mint) (v : V)
    (h : k ≠ k') : mapGet (mapSet l k v) k' = mapGet l k' := by
  induction l with
  | nil => simp [mapSet, mapGet, h]
  | cons p rest ih =>
      by_cases hk : p.1 = k
      · subst hk
        simp [mapSet, mapGet, h]
      · simp [mapSet, mapGet, hk, ih]

theorem mapGet_mapDelete {V : Type} (l : MapL V) (k k' : Mint) :
    mapGet (mapDelete l k) k' = if k = k' then none else mapGet l k' := by
  induction l with
  | nil => simp [mapDelete, mapGet]
  | cons p rest ih =>
      by_cases hk : p.1 = k
      · subst hk
        by_cases hk' : p.1 = k'
        · subst hk'
          simp [mapDelete, mapGet, ih]
        · simp [mapDelete, mapGet, hk', ih]
      · by_cases hk' : p.1 = k'
        · subst hk'
          have : ¬ k = p.1 := fun he => hk he.symm
          simp [mapDelete, mapGet, hk, this]
        · simp [mapDelete, mapGet, hk, hk', ih]

theorem mapGet_mapValued {V W : Type} (f : Mint → V → W) (l : MapL V) (k : Mint) :
    mapGet (l.map fun p => (p.1, f p.1 p.2)) k = (mapGet l k).map (f k) := by
  induction l with
  | nil => simp [mapGet]
  | cons p rest ih =>
      by_cases hk : p.1 = k
      · subst hk
        simp [mapGet]
      · simp [mapGet, hk, ih]

theorem mem_setAdd_self (s : MintSet) (m : Mint) : m ∈ setAdd s m := by
  by_cases h : m ∈ s
  · simp [setAdd, h]
  · simp [setAdd, h]

theorem mem_setAdd_of_mem (s : MintSet) (m m' : Mint) (h : m' ∈ s) :
    m' ∈ setAdd s m := by
  by_cases hm : m ∈ s
  · simp [setAdd, hm, h]
  · simp [setAdd, hm]
    exact Or.inl h

theorem foldl_preserve {α β : Type} (P : α → Prop) (f : α → β → α)
    (hf : ∀ a b, P a → P (f a b)) :
    ∀ (l : List β) (a : α), P a → P (l.foldl f a) := by
  intro l
  induction l with
  | nil => intro a ha; simpa using ha
  | cons b rest ih =>
      intro a ha
      simpa using ih (f a b) (hf a b ha)

/-! Part: Frame lemmas: which fields each helper leaves untouched -/

theorem updateTokenIndices_trackedTokens (cfg : CleanupConfig) (now : Int)
    (mint : Mint) (td : TokenData) (h : TokenHealth) (s : TrackerState) :
    (updateTokenIndices cfg now mint td h s).trackedTokens = s.trackedTokens := by
  unfold updateTokenIndices
  dsimp only
  repeat' split
  all_goals rfl

theorem updateTokenIndices_tokenHealth (cfg : CleanupConfig) (now : Int)
    (mint : Mint) (td : TokenData) (h : TokenHealth) (s : TrackerState) :
    (updateTokenIndices cfg now mint td h s).tokenHealth = s.tokenHealth := by
  unfold updateTokenIndices
  dsimp only
  repeat' split
  all_goals rfl

theorem addPricePoint_trackedTokens (pp : PricePoint) (s : TrackerState) :
    (addPricePoint pp s).1.trackedTokens = s.trackedTokens := rfl

theorem addPricePoint_tokenHealth (pp : PricePoint) (s : TrackerState) :
    (addPricePoint pp s).1.tokenHealth = s.tokenHealth := rfl

theorem checkAlerts_trackedTokens (now : Int) (td : TokenData) (s : TrackerState) :
    (checkAlerts now td s).1.trackedTokens = s.trackedTokens := rfl

theorem checkAlerts_tokenHealth (now : Int) (td : TokenData) (s : TrackerState) :
    (checkAlerts now td s).1.tokenHealth = s.tokenHealth := rfl

theorem trackTokenContinue_trackedTokens (cfg : CleanupConfig) (now : Int)
    (td : TokenData) (h : TokenHealth) (s : TrackerState) :
    (trackTokenContinue cfg now td h s).1.trackedTokens = s.trackedTokens := by
  unfold trackTokenContinue
  simp only [checkAlerts_trackedTokens, addPricePoint_trackedTokens,
    updateTokenIndices_trackedTokens]

theorem trackTokenContinue_tokenHealth (cfg : CleanupConfig) (now : Int)
    (td : TokenData) (h : TokenHealth) (s : TrackerState) :
    (trackTokenContinue cfg now td h s).1.tokenHealth = s.tokenHealth := by
  unfold trackTokenContinue
  simp only [checkAlerts_tokenHealth, addPricePoint_tokenHealth,
    updateTokenIndices_tokenHealth]

/-- Source `detectInactiveToken` never changes the peaks or the evaluation flag of
the health record it threads through. -/
theorem detectInactiveToken_frame (cfg : CleanupConfig) (now : Int)
    (td : TokenData) (h : TokenHealth) :
    ((detectInactiveToken cfg now td h).2.peakPrice = h.peakPrice ∧
      (detectInactiveToken cfg now td h).2.peakVolume24h = h.peakVolume24h) ∧
    (detectInactiveToken cfg now td h).2.isBeingEvaluated = h.isBeingEvaluated := by
  unfold detectInactiveToken
  by_cases h1 : now - h.lastTradeTime > cfg.INACTIVITY_THRESHOLD_MS
  · simp [h1]
  · by_cases h2 : td.volume24h < cfg.MIN_VOLUME_24H_SOL
    · by_cases h3 :
        h.consecutiveZeroVolumePeriods + 1 ≥ cfg.CONSECUTIVE_ZERO_VOLUME_PERIODS
      · simp [h1, h2, h3]
      · simp [h1, h2, h3]
    · simp [h1, h2]

/-! Part: Claim C9: reconnect backoff -/

/-- C9: for an attempt counter `n < maxReconnectAttempts`, a disconnect
schedules attempt `n + 1` after `min(reconnectDelay · 2^((n+1)-1), 60000)` ms;
once the counter has reached the maximum, no attempt is scheduled and the
terminal max-attempts signal is emitted instead. -/
theorem C9_reconnect_backoff :
    (∀ (opts : ReconnectOptions) (n : Nat), n < opts.maxReconnectAttempts →
      scheduleReconnect opts n =
        .scheduled (n + 1) (min (opts.reconnectDelay * 2 ^ (n + 1 - 1)) 60000)) ∧
    (∀ (opts : ReconnectOptions) (n : Nat), n ≥ opts.maxReconnectAttempts →
      scheduleReconnect opts n = .maxReached) := by
  constructor
  · intro opts n hlt
    have hn : ¬ n ≥ opts.maxReconnectAttempts := by omega
    simp [scheduleReconnect, hn]
  · intro opts n hge
    simp [scheduleReconnect, hge]

/-- Witness for C9 at the source defaults (`RECONNECT_DELAY = 5000`,
`MAX_RECONNECT_ATTEMPTS = 10`): attempt counter 2 schedules attempt 3 after
20 s, and counter 10 emits the terminal signal. -/
theorem C9_witness :
    scheduleReconnect { reconnectDelay := 5000, maxReconnectAttempts := 10 } 2 =
      ReconnectAction.scheduled 3 20000 ∧
    scheduleReconnect { reconnectDelay := 5000, maxReconnectAttempts := 10 } 10 =
      ReconnectAction.maxReached := by
  constructor
  · rw [C9_reconnect_backoff.1 { reconnectDelay := 5000, maxReconnectAttempts := 10 } 2
      (by decide)]
    decide
  · exact C9_reconnect_backoff.2 { reconnectDelay := 5000, maxReconnectAttempts := 10 } 10
      (by decide)

/-! Part: Claim C8: dedup window idempotence -/

/-- C8: a token-update whose mint was recorded in the dedup map within
`dedupWindowMs` is dropped before validation: it contributes no snapshot and
no price point to the batch's write vectors (hence no database write), and
leaves the processor state — including the dedup map itself — unchanged. -/
theorem C8_dedup_window_noop :
    ∀ (cfg : ProcessorConfig) (now : Int) (msg : TokenUpdateMessage)
      (ps : ProcessorState) (t : Int),
      mapGet ps.recentMints msg.data.mint = some t → t ≠ 0 →
      now - t < cfg.dedupWindowMs →
      processTokenMessageBatchPart cfg now msg ps = (([], []), ps) := by
  intro cfg now msg ps t hget ht hwin
  unfold processTokenMessageBatchPart processTokenUpdate isDuplicate
  simp [hget, ht, hwin]

/-- Witness for C8: mint "A" accepted at t = 500, resubmitted at t = 900
(window 1000 ms) — dropped with no state change and no writes. -/
theorem C8_witness :
    processTokenMessageBatchPart defaultProcessorConfig 900 msgW psW =
      (([], []), psW) :=
  C8_dedup_window_noop defaultProcessorConfig 900 msgW psW 500 (by decide)
    (by decide) (by decide)

/-! Part: Claim C5: the zero-volume counter -/

/-- C5 counterexample: `tdVol5.volume24h = 5` is strictly below
`MIN_VOLUME_24H_SOL = 10`, yet after the accepted update (`sVol5a` →
`sVol5b`) the counter is still 0 — the claimed increment (0 to 1) did not
happen, because `trackToken` never increments the counter (and in fact any
positive volume resets it). -/
theorem C5_counterexample :
    tdVol5.volume24h < defaultConfig.MIN_VOLUME_24H_SOL ∧
    zeroVolPeriodsOf sVol5a "A" = some 0 ∧
    zeroVolPeriodsOf sVol5b "A" = some 0 ∧
    ¬ zeroVolPeriodsOf sVol5b "A" = some 1 := by
  with_unfolding_all decide

/-- C5 amended: the increment lives in `detectInactiveToken` (the cleanup
read path), not in `trackToken`: each evaluation of a token that is not
time-inactive and has volume strictly below `MIN_VOLUME_24H_SOL` increments
the counter by one; volume exactly equal to the threshold never increments
(strict `<`); and an accepted `trackToken` update sets the counter to 0 when
volume is positive and leaves it unchanged otherwise — it never increments. -/
theorem C5_counter_semantics :
    (∀ (cfg : CleanupConfig) (now : Int) (td : TokenData) (h : TokenHealth),
      ¬ now - h.lastTradeTime > cfg.INACTIVITY_THRESHOLD_MS →
      td.volume24h < cfg.MIN_VOLUME_24H_SOL →
      (detectInactiveToken cfg now td h).2.consecutiveZeroVolumePeriods =
        h.consecutiveZeroVolumePeriods + 1) ∧
    (∀ (cfg : CleanupConfig) (now : Int) (td : TokenData) (h : TokenHealth),
      ¬ td.volume24h < cfg.MIN_VOLUME_24H_SOL →
      (detectInactiveToken cfg now td h).2.consecutiveZeroVolumePeriods =
        h.consecutiveZeroVolumePeriods) ∧
    (∀ (cfg : CleanupConfig) (now : Int) (td : TokenData) (s : TrackerState)
        (h : TokenHealth),
      mapGet s.tokenHealth td.mint = some h → h.isBeingEvaluated = false →
      (mapGet (trackToken cfg now td s).1.tokenHealth td.mint).map
          TokenHealth.consecutiveZeroVolumePeriods =
        some (if td.volume24h > 0 then 0 else h.consecutiveZeroVolumePeriods)) := by
  refine ⟨?_, ?_, ?_⟩
  · intro cfg now td h h1 h2
    simp [detectInactiveToken, h1, h2]
    split <;> simp
  · intro cfg now td h h2
    unfold detectInactiveToken
    by_cases h1 : now - h.lastTradeTime > cfg.INACTIVITY_THRESHOLD_MS
    · simp [h1]
    · simp [h1, h2]
  · intro cfg now td s h hget hflag
    simp only [trackToken, hget, hflag, Bool.false_eq_true, if_false]
    rw [trackTokenContinue_tokenHealth, mapGet_mapSet_self]
    simp [updatedHealth]

/-- Witness for C5's amended statement: a cleanup evaluation of `tdVol5`
increments the counter 0 → 1; an evaluation at volume exactly 10 leaves it
at 0; and the accepted update `sVol5a` → `sVol5b` resets it to 0. -/
theorem C5_witness :
    (detectInactiveToken defaultConfig 0 tdVol5 (healthFlagged)).2.consecutiveZeroVolumePeriods = 1 ∧
    (detectInactiveToken defaultConfig 0 { tdVol5 with volume24h := 10 }
        (healthFlagged)).2.consecutiveZeroVolumePeriods = 0 ∧
    (mapGet sVol5b.tokenHealth "A").map TokenHealth.consecutiveZeroVolumePeriods =
      some 0 := by
  refine ⟨?_, ?_, ?_⟩
  · rw [C5_counter_semantics.1 defaultConfig 0 tdVol5 healthFlagged
      (by decide) (by with_unfolding_all decide)]
    decide
  · rw [C5_counter_semantics.2.1 defaultConfig 0 { tdVol5 with volume24h := 10 }
      healthFlagged (by with_unfolding_all decide)]
    decide
  · have h := C5_counter_semantics.2.2 defaultConfig 1000 tdVol5Later sVol5a
      healthVol5a (by with_unfolding_all decide) (by decide)
    show (mapGet (trackToken defaultConfig 1000 tdVol5Later sVol5a).1.tokenHealth
        tdVol5Later.mint).map TokenHealth.consecutiveZeroVolumePeriods = some 0
    rw [h]
    with_unfolding_all decide

/-! Part: Claim C1: the "silent skip" on `isBeingEvaluated` -/

/-- C1 counterexample (a reachable execution): in `sMarked`, token "A" is
under evaluation, yet the mid-transaction `trackToken` call DOES change
tracker state — it overwrites the current snapshot ("A"'s price becomes 200).
The claim that the skip "leaves every piece of Tracker state unchanged
(current snapshot, …)" is therefore false. -/
theorem C1_counterexample :
    evalFlagOf sMarked (mintOfNat 0) = some true ∧
    snapshotPriceOf sMarked (mintOfNat 0) = some 100 ∧
    snapshotPriceOf sSkip (mintOfNat 0) = some 200 ∧
    ¬ sSkip.trackedTokens = sMarked.trackedTokens := by
  with_unfolding_all decide

/-- C1 amended: a `trackToken` call for a mint whose health is under
evaluation overwrites the current snapshot and the last-activity timestamp
(lines 1193-1196 run before the guard at line 1215) and then returns:
Health, price history, indices, alerts, trends and stats are unchanged, no
event is emitted and no sink write happens. -/
theorem C1_skip_frame :
    ∀ (cfg : CleanupConfig) (now : Int) (td : TokenData) (s : TrackerState)
      (h : TokenHealth),
      mapGet s.tokenHealth td.mint = some h → h.isBeingEvaluated = true →
      trackToken cfg now td s =
        ({ s with trackedTokens := mapSet s.trackedTokens td.mint td,
                  lastActivityMap := mapSet s.lastActivityMap td.mint now },
         Effects.empty) := by
  intro cfg now td s h hget hflag
  simp only [trackToken, hget, hflag, if_true]

/-- Witness for C1's amended statement at a concrete flagged state. -/
theorem C1_witness :
    trackToken defaultConfig 5 tdVol5 sFlagged =
      ({ sFlagged with
         trackedTokens := mapSet sFlagged.trackedTokens "A" tdVol5,
         lastActivityMap := mapSet sFlagged.lastActivityMap "A" 5 },
       Effects.empty) :=
  C1_skip_frame defaultConfig 5 tdVol5 sFlagged healthFlagged
    (by decide) (by decide)

/-! Part: Claim C10: non-strict threshold alerts -/

/-- C10: threshold alerts compare non-strictly: an enabled, untriggered
threshold alert for the updated mint ends up triggered exactly when
`above ∧ price ≥ value` or `below ∧ price ≤ value` — so an update whose
price equals the value fires both an `above` and a `below` alert. -/
theorem C10_threshold_nonstrict :
    ∀ (now : Int) (td : TokenData) (s : TrackerState) (id : String)
      (a : PriceAlert),
      mapGet s.alerts id = some a → a.mint = td.mint → a.enabled = true →
      a.triggered = false → a.kind = .threshold →
      mapGet (checkAlerts now td s).1.alerts id =
        some (if (a.condition = .above ∧ td.price ≥ a.value) ∨
                 (a.condition = .below ∧ td.price ≤ a.value)
              then { a with triggered := true, triggeredAt := some now }
              else a) := by
  intro now td s id a hget hmint hen htr hkind
  unfold checkAlerts
  dsimp only
  rw [mapGet_mapValued
    (fun _ v => (checkAlertEntry now td ((mapGet s.priceHistory td.mint).getD []) v).1)
    s.alerts id, hget]
  dsimp only [Option.map]
  by_cases hc : (a.condition = .above ∧ td.price ≥ a.value) ∨
      (a.condition = .below ∧ td.price ≤ a.value)
  · have hb : alertShouldTrigger td ((mapGet s.priceHistory td.mint).getD []) a = true := by
      simp only [alertShouldTrigger, hkind, Bool.or_eq_true, Bool.and_eq_true,
        decide_eq_true_eq]
      exact hc
    simp [checkAlertEntry, hmint, hen, htr, hb, hc]
  · have hb : alertShouldTrigger td ((mapGet s.priceHistory td.mint).getD []) a = false := by
      rw [Bool.eq_false_iff]
      intro habs
      apply hc
      simpa only [alertShouldTrigger, hkind, Bool.or_eq_true, Bool.and_eq_true,
        decide_eq_true_eq] using habs
    simp [checkAlertEntry, hmint, hen, htr, hb, hc]

/-- Witness for C10: price 5 equals both alert values; the enabled `above`
and `below` alerts for "A" both end up triggered by the same update. -/
theorem C10_witness :
    mapGet (checkAlerts 42 tdPrice5 sTwoAlerts).1.alerts "al1" =
      some { alertAboveA with triggered := true, triggeredAt := some 42 } ∧
    mapGet (checkAlerts 42 tdPrice5 sTwoAlerts).1.alerts "al2" =
      some { alertBelowA with triggered := true, triggeredAt := some 42 } := by
  constructor
  · rw [C10_threshold_nonstrict 42 tdPrice5 sTwoAlerts "al1" alertAboveA
      (by decide) (by decide) (by decide) (by decide) (by decide)]
    with_unfolding_all decide
  · rw [C10_threshold_nonstrict 42 tdPrice5 sTwoAlerts "al2" alertBelowA
      (by decide) (by decide) (by decide) (by decide) (by decide)]
    with_unfolding_all decide

/-! Part: Claim C7: the per-cycle removal cap -/

theorem execStep_bounds (cfg : CleanupConfig) (now : Int)
    (acc : TrackerState × CleanupMetrics × Effects) (r : CleanupReason) :
    (execStep cfg now acc r).2.1.actuallyRemoved ≤ acc.2.1.actuallyRemoved + 1 ∧
    (execStep cfg now acc r).2.1.savedByLimit = acc.2.1.savedByLimit := by
  unfold execStep
  cases hgt : mapGet acc.1.trackedTokens r.mint with
  | none => simp [hgt]
  | some td =>
      cases hgh : mapGet acc.1.tokenHealth r.mint with
      | none => simp [hgt, hgh]
      | some h =>
          simp only [hgt, hgh]
          cases hr : r.reason
          all_goals simp only [hr]
          all_goals split
          all_goals simp

theorem execFold_bounds (cfg : CleanupConfig) (now : Int) :
    ∀ (l : List CleanupReason) (acc : TrackerState × CleanupMetrics × Effects),
      (l.foldl (execStep cfg now) acc).2.1.actuallyRemoved ≤
        acc.2.1.actuallyRemoved + l.length ∧
      (l.foldl (execStep cfg now) acc).2.1.savedByLimit = acc.2.1.savedByLimit := by
  intro l
  induction l with
  | nil => intro acc; simp
  | cons r rest ih =>
      intro acc
      have h1 := execStep_bounds cfg now acc r
      have h2 := ih (execStep cfg now acc r)
      constructor
      · rw [List.foldl_cons]
        refine le_trans h2.1 ?_
        have := h1.1
        simp only [List.length_cons]
        omega
      · rw [List.foldl_cons, h2.2, h1.2]

/-- C7: in every cleanup cycle the number of tokens actually untracked is at
most `⌊|tracked| · effectiveMaxCleanupPercentage⌋` (the percentage coming
from the emergency override installed by `forceEmergencyCleanup` when one is
active), and `savedByLimit` equals the number of phase-1 candidates beyond
that cap. -/
theorem C7_per_cycle_cap :
    ∀ (cfg : CleanupConfig) (now : Int) (cands : List CleanupReason)
      (s : TrackerState),
      (confirmAndExecuteCleanup cfg now cands none s).2.1.actuallyRemoved ≤
        (⌊(s.trackedTokens.length : Rat) *
            getEffectiveMaxCleanupPercentage s cfg⌋).toNat ∧
      (confirmAndExecuteCleanup cfg now cands none s).2.1.savedByLimit =
        cands.length -
          min (⌊(s.trackedTokens.length : Rat) *
              getEffectiveMaxCleanupPercentage s cfg⌋).toNat cands.length := by
  intro cfg now cands s
  unfold confirmAndExecuteCleanup
  dsimp only
  constructor
  · refine le_trans (execFold_bounds cfg now _ _).1 ?_
    simp [List.length_take]
  · rw [(execFold_bounds cfg now _ _).2]
    simp [List.length_take]

/-! Part: Claim C2: the peak invariant -/

/-- C2 counterexample (a reachable execution): the mid-transaction update for
"A" (price 200) is "skipped" after the snapshot was already overwritten, so
after the subsequent fully accepted operation on "B" the tracked mint "A" has
`current.price = 200` but `Health.peakPrice = 100` — the invariant
`peakPrice ≥ price` is violated at the end of an accepted operation. -/
theorem C2_counterexample :
    snapshotPriceOf sAfterC2 (mintOfNat 0) = some 200 ∧
    peakPriceOf sAfterC2 (mintOfNat 0) = some 100 ∧
    ¬ ((100 : Rat) ≥ 200) := by
  with_unfolding_all decide

/-! Part: Claim C3: the minimum-population floor -/

/-- C3 (code bug): the floor is only an entry gate of phase 1
(`evaluateCleanupCandidates`, line 2037); phase 2 applies the percentage cap
with no floor re-check.  From a reachable 101-token state with two confirmed
rug candidates (`MIN_TOKENS_TO_KEEP = 100`, cap `⌊101·0.1⌋ = 10`), one
cleanup transaction removes both, leaving 99 < 100 tracked tokens — despite
the source's own "Always keep at least 100 tokens" comment
(constants.ts:95) and the integration test's `toBeGreaterThanOrEqual`
assertion. -/
theorem C3_floor_not_enforced :
    s101c.trackedTokens.length = 101 ∧
    defaultConfig.MIN_TOKENS_TO_KEEP = 100 ∧
    (performCleanup defaultConfig graceT CleanupFault.noFault
        s101c).state.trackedTokens.length = 99 := by
  with_unfolding_all decide

/-! Part: Claim C4: effects of a successful untrack -/

/-- C4 (code bug): the same cleanup transaction untracks "A" and "B"; each
untrack removes the mint from the snapshot map, history, health, the
last-activity map, all five indices, its alerts and its trends, emits exactly
one `tokenCleanedUp` event and (via the `main.ts` handler) causes exactly one
unsubscribe call — but writes NO `CleanupEvent` to the sink, because the
`writeCleanupEvent` call (websocket-client.ts:2329) is commented out behind a
TODO.  The claimed "exactly one CleanupEvent record" is therefore zero. -/
theorem C4_no_cleanup_event_written :
    cleanupRun.eff.cleanedUpEvents.length = 2 ∧
    mainUnsubscribeCalls cleanupRun.eff = [[mintOfNat 0], [mintOfNat 1]] ∧
    cleanupRun.eff.cleanupEventWrites = [] ∧
    mapGet cleanupRun.state.trackedTokens (mintOfNat 0) = none ∧
    mapGet cleanupRun.state.tokenHealth (mintOfNat 0) = none ∧
    mapGet cleanupRun.state.priceHistory (mintOfNat 0) = none := by
  with_unfolding_all decide

/-! Part: Invariant-transfer lemmas on the two maps -/

theorem peakInv2_set_both (tracked : MapL TokenData) (health : MapL TokenHealth)
    (mint : Mint) (td : TokenData) (h' : TokenHealth)
    (hpp : h'.peakPrice ≥ td.price) (hpv : h'.peakVolume24h ≥ td.volume24h)
    (hI : PeakInv2 tracked health) :
    PeakInv2 (mapSet tracked mint td) (mapSet health mint h') := by
  intro m td' hh hgt hgh
  by_cases he : mint = m
  · subst he
    rw [mapGet_mapSet_self] at hgt hgh
    cases hgt
    cases hgh
    exact ⟨hpp, hpv⟩
  · rw [mapGet_mapSet_ne _ _ _ _ he] at hgt hgh
    exact hI m td' hh hgt hgh

theorem peakInv2_set_health (tracked : MapL TokenData) (health : MapL TokenHealth)
    (mint : Mint) (h h' : TokenHealth)
    (hget : mapGet health mint = some h)
    (hpp : h'.peakPrice = h.peakPrice) (hpv : h'.peakVolume24h = h.peakVolume24h)
    (hI : PeakInv2 tracked health) :
    PeakInv2 tracked (mapSet health mint h') := by
  intro m td' hh hgt hgh
  by_cases he : mint = m
  · subst he
    rw [mapGet_mapSet_self] at hgh
    cases hgh
    have hbase := hI _ td' h hgt hget
    exact ⟨hpp ▸ hbase.1, hpv ▸ hbase.2⟩
  · rw [mapGet_mapSet_ne _ _ _ _ he] at hgh
    exact hI _ _ _ hgt hgh

theorem peakInv2_delete (tracked : MapL TokenData) (health : MapL TokenHealth)
    (mint : Mint) (hI : PeakInv2 tracked health) :
    PeakInv2 (mapDelete tracked mint) (mapDelete health mint) := by
  intro m td' hh hgt hgh
  rw [mapGet_mapDelete] at hgt hgh
  by_cases he : mint = m
  · rw [if_pos he] at hgt
    exact absurd hgt (by simp)
  · rw [if_neg he] at hgt hgh
    exact hI _ _ _ hgt hgh

/-- Lookup through the pointwise flag-clearing map of `clearCleanupLocks`. -/
theorem mapGet_clearFlags (health : MapL TokenHealth) (tagged : MintSet) (k : Mint) :
    mapGet (health.map fun p =>
      (p.1, if p.1 ∈ tagged then { p.2 with isBeingEvaluated := false } else p.2)) k =
    (mapGet health k).map
      (fun v => if k ∈ tagged then { v with isBeingEvaluated := false } else v) := by
  induction health with
  | nil => simp [mapGet]
  | cons p rest ih =>
      by_cases hk : p.1 = k
      · subst hk
        simp [mapGet]
      · simp [mapGet, hk, ih]

theorem peakInv2_clearFlags (tracked : MapL TokenData) (health : MapL TokenHealth)
    (tagged : MintSet) (hI : PeakInv2 tracked health) :
    PeakInv2 tracked
      (health.map fun p =>
        (p.1,
         if p.1 ∈ tagged then { p.2 with isBeingEvaluated := false } else p.2)) := by
  intro m td' h' hgt hgh
  rw [mapGet_clearFlags] at hgh
  cases hh : mapGet health m with
  | none => rw [hh] at hgh; exact absurd hgh (by simp)
  | some h0 =>
      rw [hh] at hgh
      have hbase := hI _ _ _ hgt hh
      simp only [Option.map] at hgh
      cases hgh
      by_cases hm : m ∈ tagged
      · simpa [hm] using hbase
      · simpa [hm] using hbase

theorem flagsTagged2_mono (health : MapL TokenHealth) (tagged tagged' : MintSet)
    (hsub : ∀ x, x ∈ tagged → x ∈ tagged') (hf : FlagsTagged2 health tagged) :
    FlagsTagged2 health tagged' := by
  intro m h hget hflag
  exact hsub m (hf m h hget hflag)

theorem flagsTagged2_set (health : MapL TokenHealth) (tagged : MintSet)
    (mint : Mint) (h' : TokenHealth)
    (hm : h'.isBeingEvaluated = true → mint ∈ tagged)
    (hf : FlagsTagged2 health tagged) :
    FlagsTagged2 (mapSet health mint h') tagged := by
  intro m h hget hflag
  by_cases he : mint = m
  · subst he
    rw [mapGet_mapSet_self] at hget
    cases hget
    exact hm hflag
  · rw [mapGet_mapSet_ne _ _ _ _ he] at hget
    exact hf m h hget hflag

theorem flagsTagged2_delete (health : MapL TokenHealth) (tagged : MintSet)
    (mint : Mint) (hf : FlagsTagged2 health tagged) :
    FlagsTagged2 (mapDelete health mint) tagged := by
  intro m h hget hflag
  rw [mapGet_mapDelete] at hget
  by_cases he : mint = m
  · rw [if_pos he] at hget
    exact absurd hget (by simp)
  · rw [if_neg he] at hget
    exact hf m h hget hflag

/-! Part: Branch characterizations of `trackToken` -/

theorem trackToken_eq_new (cfg : CleanupConfig) (now : Int) (td : TokenData)
    (s : TrackerState) (hget : mapGet s.tokenHealth td.mint = none) :
    trackToken cfg now td s =
      trackTokenContinue cfg now td (freshHealth cfg now td)
        { s with trackedTokens := mapSet s.trackedTokens td.mint td,
                 lastActivityMap := mapSet s.lastActivityMap td.mint now,
                 tokenHealth := mapSet s.tokenHealth td.mint (freshHealth cfg now td) } := by
  simp only [trackToken, hget]

theorem trackToken_eq_update (cfg : CleanupConfig) (now : Int) (td : TokenData)
    (s : TrackerState) (h : TokenHealth)
    (hget : mapGet s.tokenHealth td.mint = some h)
    (hflag : h.isBeingEvaluated = false) :
    trackToken cfg now td s =
      trackTokenContinue cfg now td (updatedHealth now td h)
        { s with trackedTokens := mapSet s.trackedTokens td.mint td,
                 lastActivityMap := mapSet s.lastActivityMap td.mint now,
                 tokenHealth := mapSet s.tokenHealth td.mint (updatedHealth now td h) } := by
  simp only [trackToken, hget, hflag, Bool.false_eq_true, if_false]

/-! Part: Peak-invariant preservation through the operations -/

theorem evalInactivePart_peak (cfg : CleanupConfig) (now : Int) (mint : Mint)
    (td : TokenData) (h : TokenHealth) (s : TrackerState)
    (cands : List CleanupReason)
    (hgh : mapGet s.tokenHealth mint = some h)
    (hI : PeakInv2 s.trackedTokens s.tokenHealth) :
    PeakInv2 (evalInactivePart cfg now mint td h s cands).1.trackedTokens
      (evalInactivePart cfg now mint td h s cands).1.tokenHealth := by
  unfold evalInactivePart
  split
  · cases hr : (detectInactiveToken cfg now td h).1 <;>
      simp only [hr] <;>
      exact peakInv2_set_health _ _ _ h _ hgh
        (detectInactiveToken_frame cfg now td h).1.1
        (detectInactiveToken_frame cfg now td h).1.2 hI
  · exact hI

theorem evalCandidateStep_peak (cfg : CleanupConfig) (now : Int)
    (acc : TrackerState × List CleanupReason) (mint : Mint)
    (hI : PeakInv2 acc.1.trackedTokens acc.1.tokenHealth) :
    PeakInv2 (evalCandidateStep cfg now acc mint).1.trackedTokens
      (evalCandidateStep cfg now acc mint).1.tokenHealth := by
  unfold evalCandidateStep
  cases hgt : mapGet acc.1.trackedTokens mint with
  | none => simpa [hgt] using hI
  | some td =>
      cases hgh : mapGet acc.1.tokenHealth mint with
      | none => simpa [hgt, hgh] using hI
      | some h =>
          simp only [hgt, hgh]
          have hI1 : PeakInv2 acc.1.trackedTokens
              (mapSet acc.1.tokenHealth mint { h with isBeingEvaluated := true }) :=
            peakInv2_set_health _ _ _ h _ hgh rfl rfl hI
          split
          · exact hI1
          · split
            · exact hI1
            · split
              · cases hdr :
                  detectRuggedToken cfg td { h with isBeingEvaluated := true } with
                | some r => simpa [hdr] using hI1
                | none =>
                    simp only [hdr]
                    exact evalInactivePart_peak cfg now mint td _ _ _
                      (mapGet_mapSet_self _ _ _) hI1
              · exact evalInactivePart_peak cfg now mint td _ _ _
                  (mapGet_mapSet_self _ _ _) hI1

theorem evalFold_peak (cfg : CleanupConfig) (now : Int) (l : MintSet)
    (s : TrackerState) (c : List CleanupReason)
    (hI : PeakInv2 s.trackedTokens s.tokenHealth) :
    PeakInv2 (l.foldl (evalCandidateStep cfg now) (s, c)).1.trackedTokens
      (l.foldl (evalCandidateStep cfg now) (s, c)).1.tokenHealth :=
  foldl_preserve
    (fun acc : TrackerState × List CleanupReason =>
      PeakInv2 acc.1.trackedTokens acc.1.tokenHealth)
    (evalCandidateStep cfg now)
    (fun a b hb => evalCandidateStep_peak cfg now a b hb) l (s, c) hI

theorem evaluateCleanupCandidates_peak (cfg : CleanupConfig) (now : Int)
    (s : TrackerState) (hI : PeakInvariant s) :
    PeakInvariant (evaluateCleanupCandidates cfg now s).1 := by
  unfold evaluateCleanupCandidates PeakInvariant at *
  split <;> split <;>
    first
      | exact hI
      | exact evalFold_peak cfg now _ s [] hI

theorem execStep_peak (cfg : CleanupConfig) (now : Int)
    (acc : TrackerState × CleanupMetrics × Effects) (r : CleanupReason)
    (hI : PeakInv2 acc.1.trackedTokens acc.1.tokenHealth) :
    PeakInv2 (execStep cfg now acc r).1.trackedTokens
      (execStep cfg now acc r).1.tokenHealth := by
  unfold execStep
  cases hgt : mapGet acc.1.trackedTokens r.mint with
  | none => simpa [hgt] using hI
  | some td =>
      cases hgh : mapGet acc.1.tokenHealth r.mint with
      | none => simpa [hgt, hgh] using hI
      | some h =>
          simp only [hgt, hgh]
          have hI2 : PeakInv2 acc.1.trackedTokens
              (mapSet acc.1.tokenHealth r.mint (detectInactiveToken cfg now td h).2) :=
            peakInv2_set_health _ _ _ h _ hgh
              (detectInactiveToken_frame cfg now td h).1.1
              (detectInactiveToken_frame cfg now td h).1.2 hI
          cases hr : r.reason
          all_goals simp only
          · split
            · exact peakInv2_delete _ _ _ hI
            · exact hI
          · split
            · exact peakInv2_delete _ _ _ hI2
            · exact hI2
          · split
            · exact peakInv2_delete _ _ _ hI2
            · exact hI2

theorem execFold_peak (cfg : CleanupConfig) (now : Int)
    (l : List CleanupReason) (s : TrackerState) (m : CleanupMetrics)
    (e : Effects) (hI : PeakInv2 s.trackedTokens s.tokenHealth) :
    PeakInv2 (l.foldl (execStep cfg now) (s, m, e)).1.trackedTokens
      (l.foldl (execStep cfg now) (s, m, e)).1.tokenHealth :=
  foldl_preserve
    (fun acc : TrackerState × CleanupMetrics × Effects =>
      PeakInv2 acc.1.trackedTokens acc.1.tokenHealth)
    (execStep cfg now)
    (fun a b hb => execStep_peak cfg now a b hb) l (s, m, e) hI

theorem confirmAndExecuteCleanup_peak (cfg : CleanupConfig) (now : Int)
    (cands : List CleanupReason) (budget : Option Nat) (s : TrackerState)
    (hI : PeakInvariant s) :
    PeakInvariant (confirmAndExecuteCleanup cfg now cands budget s).1 := by
  unfold confirmAndExecuteCleanup PeakInvariant at *
  cases budget <;> exact execFold_peak cfg now _ s _ _ hI

theorem logCleanupResults_peak (now : Int) (metrics : CleanupMetrics)
    (s : TrackerState) (hI : PeakInvariant s) :
    PeakInvariant (logCleanupResults now metrics s).1 := by
  unfold logCleanupResults PeakInvariant at *
  split <;> exact hI

theorem finalizeCleanup_peak (s : TrackerState) (hI : PeakInvariant s) :
    PeakInvariant (finalizeCleanup s) := by
  unfold finalizeCleanup clearCleanupLocks PeakInvariant at *
  exact peakInv2_clearFlags _ _ _ hI

/-- C2 amended: the peak invariants `peakPrice ≥ current.price` and
`peakVolume24h ≥ current.volume24h` are preserved by every modelled
operation EXCEPT a `trackToken` call for a mint under evaluation: an accepted
(non-skipped) update, cleanup phase 1, and a whole cleanup transaction (with
any fault) all preserve them.  The skipped update violates them
(`C2_counterexample`), because it overwrites the snapshot without touching
the peaks. -/
theorem C2_peak_preservation :
    (∀ (cfg : CleanupConfig) (now : Int) (td : TokenData) (s : TrackerState),
      PeakInvariant s → NotBeingEvaluated s td.mint →
      PeakInvariant (trackToken cfg now td s).1) ∧
    (∀ (cfg : CleanupConfig) (now : Int) (s : TrackerState),
      PeakInvariant s → PeakInvariant (evaluateCleanupCandidates cfg now s).1) ∧
    (∀ (cfg : CleanupConfig) (now : Int) (fault : CleanupFault) (s : TrackerState),
      PeakInvariant s → PeakInvariant (performCleanup cfg now fault s).state) := by
  refine ⟨?_, ?_, ?_⟩
  · intro cfg now td s hI hne
    cases hget : mapGet s.tokenHealth td.mint with
    | none =>
        rw [trackToken_eq_new cfg now td s hget]
        unfold PeakInvariant
        rw [trackTokenContinue_trackedTokens, trackTokenContinue_tokenHealth]
        exact peakInv2_set_both _ _ _ _ _ (le_refl _) (le_refl _) hI
    | some h =>
        have hflag := hne h hget
        rw [trackToken_eq_update cfg now td s h hget hflag]
        unfold PeakInvariant
        rw [trackTokenContinue_trackedTokens, trackTokenContinue_tokenHealth]
        refine peakInv2_set_both _ _ _ _ _ ?_ ?_ hI
        · show td.price ≤ (updatedHealth now td h).peakPrice
          unfold updatedHealth
          dsimp only
          split
          · exact le_refl _
          · exact le_of_not_lt (by assumption)
        · show td.volume24h ≤ (updatedHealth now td h).peakVolume24h
          unfold updatedHealth
          dsimp only
          split
          · exact le_refl _
          · exact le_of_not_lt (by assumption)
  · exact fun cfg now s hI => evaluateCleanupCandidates_peak cfg now s hI
  · intro cfg now fault s hI
    unfold performCleanup
    split
    · exact hI
    · split
      · exact hI
      · cases fault
        · exact finalizeCleanup_peak _
            (logCleanupResults_peak _ _ _
              (confirmAndExecuteCleanup_peak _ _ _ _ _
                (evaluateCleanupCandidates_peak _ _ _ hI)))
        · exact finalizeCleanup_peak _ (evaluateCleanupCandidates_peak _ _ _ hI)
        · exact finalizeCleanup_peak _
            (confirmAndExecuteCleanup_peak _ _ _ _ _
              (evaluateCleanupCandidates_peak _ _ _ hI))
        · exact finalizeCleanup_peak _
            (confirmAndExecuteCleanup_peak _ _ _ _ _
              (evaluateCleanupCandidates_peak _ _ _ hI))

/-- Witness for C2's amended statement: after an accepted first-sight update
the peaks dominate the snapshot of "A". -/
theorem C2_witness :
    healthVol5a.peakPrice ≥ tdVol5.price ∧
    healthVol5a.peakVolume24h ≥ tdVol5.volume24h :=
  C2_peak_preservation.1 defaultConfig 0 tdVol5 initialTrackerState
    (fun m td h hgt _ => by simp [initialTrackerState, mapGet] at hgt)
    (fun h hget => by simp [initialTrackerState, mapGet] at hget)
    "A" tdVol5 healthVol5a (by with_unfolding_all decide)
    (by with_unfolding_all decide)

/-! Part: Evaluation-flag bookkeeping through the operations (claim C6) -/

theorem evalInactivePart_flags (cfg : CleanupConfig) (now : Int) (mint : Mint)
    (td : TokenData) (h : TokenHealth) (s : TrackerState)
    (cands : List CleanupReason)
    (hmem : mint ∈ s.tokensBeingEvaluated)
    (hf : FlagsTagged2 s.tokenHealth s.tokensBeingEvaluated) :
    FlagsTagged2 (evalInactivePart cfg now mint td h s cands).1.tokenHealth
      (evalInactivePart cfg now mint td h s cands).1.tokensBeingEvaluated := by
  unfold evalInactivePart
  split
  · cases hr : (detectInactiveToken cfg now td h).1 <;>
      simp only [hr] <;>
      exact flagsTagged2_set _ _ _ _ (fun _ => hmem) hf
  · exact hf

theorem evalCandidateStep_flags (cfg : CleanupConfig) (now : Int)
    (acc : TrackerState × List CleanupReason) (mint : Mint)
    (hf : FlagsTagged2 acc.1.tokenHealth acc.1.tokensBeingEvaluated) :
    FlagsTagged2 (evalCandidateStep cfg now acc mint).1.tokenHealth
      (evalCandidateStep cfg now acc mint).1.tokensBeingEvaluated := by
  unfold evalCandidateStep
  cases hgt : mapGet acc.1.trackedTokens mint with
  | none => simpa [hgt] using hf
  | some td =>
      cases hgh : mapGet acc.1.tokenHealth mint with
      | none => simpa [hgt, hgh] using hf
      | some h =>
          simp only [hgt, hgh]
          have hf1 : FlagsTagged2
              (mapSet acc.1.tokenHealth mint { h with isBeingEvaluated := true })
              (setAdd acc.1.tokensBeingEvaluated mint) :=
            flagsTagged2_set _ _ _ _ (fun _ => mem_setAdd_self _ _)
              (flagsTagged2_mono _ _ _
                (fun x hx => mem_setAdd_of_mem _ _ _ hx) hf)
          split
          · exact hf1
          · split
            · exact hf1
            · split
              · cases hdr :
                  detectRuggedToken cfg td { h with isBeingEvaluated := true } with
                | some r => simpa [hdr] using hf1
                | none =>
                    simp only [hdr]
                    exact evalInactivePart_flags cfg now mint td _ _ _
                      (mem_setAdd_self _ _) hf1
              · exact evalInactivePart_flags cfg now mint td _ _ _
                  (mem_setAdd_self _ _) hf1

theorem evalFold_flags (cfg : CleanupConfig) (now : Int) (l : MintSet)
    (s : TrackerState) (c : List CleanupReason)
    (hf : FlagsTagged2 s.tokenHealth s.tokensBeingEvaluated) :
    FlagsTagged2 (l.foldl (evalCandidateStep cfg now) (s, c)).1.tokenHealth
      (l.foldl (evalCandidateStep cfg now) (s, c)).1.tokensBeingEvaluated :=
  foldl_preserve
    (fun acc : TrackerState × List CleanupReason =>
      FlagsTagged2 acc.1.tokenHealth acc.1.tokensBeingEvaluated)
    (evalCandidateStep cfg now)
    (fun a b hb => evalCandidateStep_flags cfg now a b hb) l (s, c) hf

theorem evaluateCleanupCandidates_flags (cfg : CleanupConfig) (now : Int)
    (s : TrackerState) (hf : FlagsTagged s) :
    FlagsTagged (evaluateCleanupCandidates cfg now s).1 := by
  unfold evaluateCleanupCandidates FlagsTagged at *
  split <;> split <;>
    first
      | exact hf
      | exact evalFold_flags cfg now _ s [] hf

theorem execStep_flags (cfg : CleanupConfig) (now : Int)
    (acc : TrackerState × CleanupMetrics × Effects) (r : CleanupReason)
    (hf : FlagsTagged2 acc.1.tokenHealth acc.1.tokensBeingEvaluated) :
    FlagsTagged2 (execStep cfg now acc r).1.tokenHealth
      (execStep cfg now acc r).1.tokensBeingEvaluated := by
  unfold execStep
  cases hgt : mapGet acc.1.trackedTokens r.mint with
  | none => simpa [hgt] using hf
  | some td =>
      cases hgh : mapGet acc.1.tokenHealth r.mint with
      | none => simpa [hgt, hgh] using hf
      | some h =>
          simp only [hgt, hgh]
          have hf2 : FlagsTagged2
              (mapSet acc.1.tokenHealth r.mint (detectInactiveToken cfg now td h).2)
              acc.1.tokensBeingEvaluated :=
            flagsTagged2_set _ _ _ _
              (fun hfl =>
                hf r.mint h hgh
                  ((detectInactiveToken_frame cfg now td h).2 ▸ hfl)) hf
          cases hr : r.reason
          all_goals simp only
          · split
            · exact flagsTagged2_delete _ _ _ hf
            · exact hf
          · split
            · exact flagsTagged2_delete _ _ _ hf2
            · exact hf2
          · split
            · exact flagsTagged2_delete _ _ _ hf2
            · exact hf2

theorem execFold_flags (cfg : CleanupConfig) (now : Int)
    (l : List CleanupReason) (s : TrackerState) (m : CleanupMetrics)
    (e : Effects) (hf : FlagsTagged2 s.tokenHealth s.tokensBeingEvaluated) :
    FlagsTagged2 (l.foldl (execStep cfg now) (s, m, e)).1.tokenHealth
      (l.foldl (execStep cfg now) (s, m, e)).1.tokensBeingEvaluated :=
  foldl_preserve
    (fun acc : TrackerState × CleanupMetrics × Effects =>
      FlagsTagged2 acc.1.tokenHealth acc.1.tokensBeingEvaluated)
    (execStep cfg now)
    (fun a b hb => execStep_flags cfg now a b hb) l (s, m, e) hf

theorem confirmAndExecuteCleanup_flags (cfg : CleanupConfig) (now : Int)
    (cands : List CleanupReason) (budget : Option Nat) (s : TrackerState)
    (hf : FlagsTagged s) :
    FlagsTagged (confirmAndExecuteCleanup cfg now cands budget s).1 := by
  unfold confirmAndExecuteCleanup FlagsTagged at *
  cases budget <;> exact execFold_flags cfg now _ s _ _ hf

theorem logCleanupResults_flags (now : Int) (metrics : CleanupMetrics)
    (s : TrackerState) (hf : FlagsTagged s) :
    FlagsTagged (logCleanupResults now metrics s).1 := by
  unfold logCleanupResults FlagsTagged at *
  split <;> exact hf

theorem finalizeCleanup_clears (s : TrackerState) (hf : FlagsTagged s) :
    NoEvalFlags (finalizeCleanup s) ∧
    (finalizeCleanup s).tokensBeingEvaluated = [] := by
  constructor
  · intro m h hget
    have hget2 : mapGet (s.tokenHealth.map fun p =>
        (p.1,
         if p.1 ∈ s.tokensBeingEvaluated then { p.2 with isBeingEvaluated := false }
         else p.2)) m = some h := hget
    rw [mapGet_clearFlags] at hget2
    cases hh : mapGet s.tokenHealth m with
    | none => rw [hh] at hget2; exact absurd hget2 (by simp)
    | some h0 =>
        rw [hh] at hget2
        simp only [Option.map] at hget2
        cases hget2
        by_cases hm : m ∈ s.tokensBeingEvaluated
        · simp [hm]
        · simp only [if_neg hm]
          cases hfl : h0.isBeingEvaluated
          · rfl
          · exact absurd (hf m h0 hh hfl) hm
  · rfl

/-- C6: once a cleanup transaction actually starts (the emergency and
reentrancy guards pass) and every already-flagged mint is registered in
`tokensBeingEvaluated` (true in every reachable state), the transaction's
`finally` clears every evaluation flag and empties the tag set on ALL exit
paths — normal completion and an exception in any phase alike. -/
theorem C6_locks_cleared_on_every_exit :
    ∀ (cfg : CleanupConfig) (now : Int) (fault : CleanupFault) (s : TrackerState),
      s.emergencyStop = false → s.cleanupPaused = false →
      s.disableAllCleanup = false → s.cleanupInProgress = false →
      FlagsTagged s →
      NoEvalFlags (performCleanup cfg now fault s).state ∧
      (performCleanup cfg now fault s).state.tokensBeingEvaluated = [] := by
  intro cfg now fault s h1 h2 h3 h4 hf
  unfold performCleanup
  simp only [h1, h2, h3, h4, Bool.false_eq_true, or_self, if_false]
  cases fault
  · exact finalizeCleanup_clears _
      (logCleanupResults_flags _ _ _
        (confirmAndExecuteCleanup_flags _ _ _ _ _
          (evaluateCleanupCandidates_flags _ _ _ hf)))
  · exact finalizeCleanup_clears _ (evaluateCleanupCandidates_flags _ _ _ hf)
  · exact finalizeCleanup_clears _
      (confirmAndExecuteCleanup_flags _ _ _ _ _
        (evaluateCleanupCandidates_flags _ _ _ hf))
  · exact finalizeCleanup_clears _
      (confirmAndExecuteCleanup_flags _ _ _ _ _
        (evaluateCleanupCandidates_flags _ _ _ hf))

/-- Witness for C6: a full no-fault transaction from the initial state ends
with an empty evaluation tag set. -/
theorem C6_witness :
    (performCleanup defaultConfig 0 CleanupFault.noFault
        initialTrackerState).state.tokensBeingEvaluated = [] :=
  (C6_locks_cleared_on_every_exit defaultConfig 0 CleanupFault.noFault
    initialTrackerState rfl rfl rfl rfl
    (fun m h hget _ => by simp [initialTrackerState, mapGet] at hget)).2

end PumpAgent
